/-
Verification of the flash-card application (src/script.js) against its
specification. The Vue application state is embedded as an explicit record
`AppState`; each user-facing operation of the script becomes a pure state
transformer. Randomness (Math.random in shuffleArray) is modelled by an
explicit choice function; timestamps and fresh ids are explicit parameters.
DOM rendering, animation calls (anime.js), modal display and the toast
auto-dismiss timer are presentation concerns; toasts themselves are kept as
a growing list so that user-visible notices are observable in the model.
-/
import Mathlib

namespace Flash

/-- A deck record, as created by saveDeck (script.js lines 168-174). -/
structure Deck where
  id : String
  name : String
  emoji : String
  color : String
  createdAt : String
deriving DecidableEq

/-- A card record, as created by saveCard (script.js lines 226-235).
`difficulty` is kept as a raw string, exactly as in the script, so that
unrecognized values can be represented; `lastReviewed` is `none` for the
JS `null`. -/
structure Card where
  id : String
  deckId : String
  front : String
  back : String
  difficulty : String
  reviewCount : Nat
  lastReviewed : Option String
  createdAt : String
deriving DecidableEq

/-- A toast notification (script.js showToast, lines 74-85). The numeric id,
the icon string and the auto-dismiss timer are cosmetic and elided. -/
structure Toast where
  message : String
  kind : String
deriving DecidableEq

/-- The deck-form model (script.js line 28). -/
structure DeckForm where
  name : String
  emoji : String
  color : String
deriving DecidableEq

/-- The card-form model (script.js line 29). -/
structure CardForm where
  front : String
  back : String
deriving DecidableEq

/-- The reactive application state of the script (script.js lines 6-40),
restricted to the data-bearing refs. The confirm-dialog machinery
(confirmMessage, confirmCallback, showConfirm) stores a closure and is
modelled by invoking the confirmed action directly. -/
structure AppState where
  view : String
  searchQuery : String
  selectedDeck : Option Deck
  decks : List Deck
  cards : List Card
  totalSessions : Nat
  showDeckModal : Bool
  showCardModal : Bool
  editingDeck : Option Deck
  editingCard : Option Card
  deckForm : DeckForm
  cardForm : CardForm
  studyCards : List Card
  studyIndex : Nat
  isFlipped : Bool
  studyCorrect : Nat
  studyWrong : Nat
  toasts : List Toast
deriving DecidableEq

/-- JS String.prototype.trim: strip leading and trailing whitespace,
modelled structurally on the character list so it evaluates by kernel
reduction. -/
def trimString (s : String) : String :=
  ⟨((s.data.dropWhile Char.isWhitespace).reverse.dropWhile
      Char.isWhitespace).reverse⟩

/-- showToast (script.js lines 74-85): appends a toast. -/
def showToast (message kind : String) (s : AppState) : AppState :=
  { s with toasts := s.toasts ++ [⟨message, kind⟩] }

/-- One step of the Fisher-Yates loop body (script.js line 371):
the simultaneous assignment [a[i], a[j]] = [a[j], a[i]] evaluates the pair
first and then writes index i, then index j. Out-of-bounds indices never
occur in the loop; the fallback returns the list unchanged. -/
def swapIdx (l : List α) (i j : Nat) : List α :=
  match l[i]?, l[j]? with
  | some x, some y => (l.set i y).set j x
  | _, _ => l

/-- The loop of shuffleArray (script.js lines 369-372), counting i down to 1.
`rand i` models the value Math.floor(Math.random() * (i + 1)) drawn at loop
index i; reducing it mod (i + 1) ranges over exactly the values that
expression can produce. -/
def shuffleStep (rand : Nat → Nat) : Nat → List α → List α
  | 0, a => a
  | i + 1, a => shuffleStep rand i (swapIdx a (i + 1) (rand (i + 1) % (i + 2)))

/-- shuffleArray (script.js lines 367-374). -/
def shuffleArray (rand : Nat → Nat) (arr : List α) : List α :=
  shuffleStep rand (arr.length - 1) arr

/-- The difficulty priority map of startStudyMode (script.js line 267),
with the `?? 1` default for unrecognized or absent difficulties. -/
def priority (d : String) : Nat :=
  if d = "hard" then 0
  else if d = "new" then 1
  else if d = "medium" then 2
  else if d = "easy" then 3
  else 1

/-- The comparator of script.js line 268 orders by ascending priority; the
JS sort is stable (ES2019), so it is modelled by a stable merge sort on
this boolean order. -/
def priorityLe (a b : Card) : Bool :=
  decide (priority a.difficulty ≤ priority b.difficulty)

/-- startStudyMode (script.js lines 260-276): study all cards; sort by
priority, then shuffle. -/
def startStudyMode (rand : Nat → Nat) (s : AppState) : AppState :=
  if s.cards.length = 0 then
    showToast "No cards to study! Create some cards first." "error" s
  else
    let sorted := s.cards.mergeSort priorityLe
    { s with
      studyCards := shuffleArray rand sorted
      studyIndex := 0
      isFlipped := false
      studyCorrect := 0
      studyWrong := 0
      view := "study" }

/-- studyDeck (script.js lines 278-290): study one deck; filter by deckId,
then shuffle (no priority sort). -/
def studyDeck (rand : Nat → Nat) (deck : Deck) (s : AppState) : AppState :=
  let deckCards := s.cards.filter (fun c => c.deckId == deck.id)
  if deckCards.length = 0 then
    showToast "No cards in this deck!" "error" s
  else
    { s with
      studyCards := shuffleArray rand deckCards
      studyIndex := 0
      isFlipped := false
      studyCorrect := 0
      studyWrong := 0
      view := "study" }

/-- flipCard (script.js lines 292-303); the animation call is cosmetic. -/
def flipCard (s : AppState) : AppState :=
  { s with isFlipped := !s.isFlipped }

/-- rateCard (script.js lines 305-339). Reading studyCards[studyIndex] out
of bounds yields undefined and the subsequent card.id access throws, which
is modelled by `none`. `now` models new Date().toISOString(). The
(reviewCount || 0) guard collapses on the Nat-valued model field. -/
def rateCard (rating now : String) (s : AppState) : Option AppState :=
  match s.studyCards[s.studyIndex]? with
  | none => none
  | some card =>
    let cards1 :=
      match s.cards.findIdx? (fun c => c.id == card.id) with
      | some i => s.cards.modify (fun c =>
          { c with difficulty := rating, reviewCount := c.reviewCount + 1,
                   lastReviewed := some now }) i
      | none => s.cards
    let correct1 := if rating = "hard" then s.studyCorrect else s.studyCorrect + 1
    let wrong1 := if rating = "hard" then s.studyWrong + 1 else s.studyWrong
    let index1 := s.studyIndex + 1
    let sessions1 :=
      if s.studyCards.length ≤ index1 then s.totalSessions + 1 else s.totalSessions
    some { s with
      cards := cards1
      studyCorrect := correct1
      studyWrong := wrong1
      studyIndex := index1
      isFlipped := false
      totalSessions := sessions1 }

/-- A sequence of rateCard calls; each element carries the rating and the
timestamp of that call. -/
def rateAll (rs : List (String × String)) (s : AppState) : Option AppState :=
  match rs with
  | [] => some s
  | (rating, now) :: rest => (rateCard rating now s).bind (rateAll rest)

/-- restartStudy (script.js lines 341-347): re-shuffles the current queue. -/
def restartStudy (rand : Nat → Nat) (s : AppState) : AppState :=
  { s with
    studyCards := shuffleArray rand s.studyCards
    studyIndex := 0
    isFlipped := false
    studyCorrect := 0
    studyWrong := 0 }

/-- exitStudy (script.js lines 349-351). -/
def exitStudy (s : AppState) : AppState :=
  { s with view := "decks" }

/-- Math.round on an exact non-negative rational p / q with q > 0:
floor(p / q + 1 / 2). -/
def mathRound (p q : Nat) : Nat :=
  (2 * p + q) / (2 * q)

/-- studyAccuracy (script.js lines 117-121). -/
def studyAccuracy (s : AppState) : Nat :=
  let total := s.studyCorrect + s.studyWrong
  if total = 0 then 0 else mathRound (100 * s.studyCorrect) total

/-- saveDeck (script.js lines 158-180); `freshId` models generateId() and
`now` models new Date().toISOString(). The update branch spreads the form
over the stored deck, replacing name (untrimmed), emoji and color. -/
def saveDeck (freshId now : String) (s : AppState) : AppState :=
  if trimString s.deckForm.name = "" then s
  else
    match s.editingDeck with
    | some ed =>
      let s1 :=
        match s.decks.findIdx? (fun d => d.id == ed.id) with
        | some i =>
          showToast "Deck updated successfully!" "success"
            { s with decks := s.decks.modify (fun d =>
                { d with name := s.deckForm.name, emoji := s.deckForm.emoji,
                         color := s.deckForm.color }) i }
        | none => s
      { s1 with showDeckModal := false }
    | none =>
      let s1 := showToast "Deck created!" "success"
        { s with decks := s.decks ++
            [⟨freshId, trimString s.deckForm.name, s.deckForm.emoji, s.deckForm.color, now⟩] }
      { s1 with showDeckModal := false }

/-- saveCard (script.js lines 212-240). In the create branch the script
dereferences selectedDeck.value.id; with no selected deck that throws,
modelled by `none`. -/
def saveCard (freshId now : String) (s : AppState) : Option AppState :=
  if trimString s.cardForm.front = "" ∨ trimString s.cardForm.back = "" then some s
  else
    match s.editingCard with
    | some ec =>
      let s1 :=
        match s.cards.findIdx? (fun c => c.id == ec.id) with
        | some i =>
          showToast "Card updated!" "success"
            { s with cards := s.cards.modify (fun c =>
                { c with front := trimString s.cardForm.front,
                         back := trimString s.cardForm.back }) i }
        | none => s
      some { s1 with showCardModal := false }
    | none =>
      match s.selectedDeck with
      | none => none
      | some sd =>
        let newCard : Card :=
          ⟨freshId, sd.id, trimString s.cardForm.front, trimString s.cardForm.back,
           "new", 0, none, now⟩
        some { (showToast "Card added!" "success"
                 { s with cards := s.cards ++ [newCard] }) with
               showCardModal := false }

/-- The confirmed branch of deleteDeck (script.js lines 184-191), executed
by confirmAction once the user accepts the dialog. -/
def deleteDeckConfirmed (deckId : String) (s : AppState) : AppState :=
  let s1 := { s with
    cards := s.cards.filter (fun c => c.deckId != deckId)
    decks := s.decks.filter (fun d => d.id != deckId) }
  let s2 :=
    match s1.selectedDeck with
    | some sd => if sd.id = deckId then { s1 with selectedDeck := none } else s1
    | none => s1
  showToast "Deck deleted." "info" s2

/-- The session invariant of the spec data model: the study index never
passes the end of the queue. -/
def sessionInvariant (s : AppState) : Prop :=
  s.studyIndex ≤ s.studyCards.length

/-- Session completion as the script tests it (script.js line 324 and the
keyboard guard on line 402): the index has reached or passed the end. -/
def sessionComplete (s : AppState) : Prop :=
  s.studyCards.length ≤ s.studyIndex

/-- All fields of the state other than the toast list agree; used to state
that an operation only reported a notice and changed nothing else. -/
def unchangedExceptToasts (s s2 : AppState) : Prop :=
  s2.view = s.view ∧ s2.searchQuery = s.searchQuery ∧
  s2.selectedDeck = s.selectedDeck ∧ s2.decks = s.decks ∧
  s2.cards = s.cards ∧ s2.totalSessions = s.totalSessions ∧
  s2.showDeckModal = s.showDeckModal ∧ s2.showCardModal = s.showCardModal ∧
  s2.editingDeck = s.editingDeck ∧ s2.editingCard = s.editingCard ∧
  s2.deckForm = s.deckForm ∧ s2.cardForm = s.cardForm ∧
  s2.studyCards = s.studyCards ∧ s2.studyIndex = s.studyIndex ∧
  s2.isFlipped = s.isFlipped ∧ s2.studyCorrect = s.studyCorrect ∧
  s2.studyWrong = s.studyWrong

/-! ### Sample data used by witnesses and counterexamples -/

/-- A sample easy card in deck d1. -/
def cardA : Card := ⟨"a1", "d1", "front a", "back a", "easy", 0, none, "t0"⟩

/-- A sample hard card in deck d1. -/
def cardB : Card := ⟨"b1", "d1", "front b", "back b", "hard", 0, none, "t0"⟩

/-- A sample medium card in deck d2. -/
def cardC : Card := ⟨"c1", "d2", "front c", "back c", "medium", 0, none, "t0"⟩

/-- A sample deck. -/
def deckD : Deck := ⟨"d1", "Deck One", "E", "C", "t0"⟩

/-- A second sample deck. -/
def deckE : Deck := ⟨"d2", "Deck Two", "E", "C", "t0"⟩

/-- A sample application state with a running two-card session. -/
def baseState : AppState :=
  { view := "study", searchQuery := "", selectedDeck := some deckD,
    decks := [deckD, deckE], cards := [cardB, cardA, cardC], totalSessions := 5,
    showDeckModal := false, showCardModal := false,
    editingDeck := none, editingCard := none,
    deckForm := ⟨"A name", "E", "C"⟩, cardForm := ⟨"f", "b"⟩,
    studyCards := [cardA, cardB], studyIndex := 0, isFlipped := false,
    studyCorrect := 0, studyWrong := 0, toasts := [] }


/-- A state whose current queue card is absent from the card store. -/
def missState : AppState :=
  { baseState with studyCards := [cardC], cards := [cardA, cardB] }

/-- A state with a three-card running session. -/
def threeCardState : AppState :=
  { baseState with studyCards := [cardA, cardB, cardC] }

/-- A state with no cards at all. -/
def noCardsState : AppState :=
  { baseState with cards := [] }

/-- A state whose only card is outside deck d1. -/
def otherDeckState : AppState :=
  { baseState with cards := [cardC] }

/-- A state whose deck form name is blank after trimming. -/
def blankDeckFormState : AppState :=
  { baseState with deckForm := ⟨"  ", "E", "C"⟩ }

/-- A state whose card form front is blank after trimming. -/
def blankCardFormState : AppState :=
  { baseState with cardForm := ⟨" ", "b"⟩ }

/-- A state whose deck d1 cards appear with the easy card first. -/
def reorderedState : AppState :=
  { baseState with cards := [cardA, cardB, cardC] }

/-! ### Permutation facts about the Fisher-Yates shuffle -/

theorem count_set_add [DecidableEq α] (l : List α) (n : Nat) (b a : α)
    (h : n < l.length) :
    (l.set n b).count a + (if l[n] == a then 1 else 0)
      = l.count a + (if b == a then 1 else 0) := by
  induction l generalizing n with
  | nil => simp at h
  | cons x xs ih =>
    cases n with
    | zero =>
      simp only [List.set_cons_zero, List.count_cons, List.getElem_cons_zero]
      exact Nat.add_right_comm _ _ _
    | succ m =>
      have h2 : m < xs.length := by simpa using h
      have key := ih m h2
      simp only [List.set_cons_succ, List.count_cons, List.getElem_cons_succ]
      rw [Nat.add_right_comm, key, Nat.add_right_comm]

theorem swapIdx_perm [DecidableEq α] (l : List α) (i j : Nat) :
    (swapIdx l i j).Perm l := by
  cases hi : l[i]? with
  | none => simp [swapIdx, hi]
  | some x =>
    cases hj : l[j]? with
    | none => simp [swapIdx, hi, hj]
    | some y =>
      obtain ⟨hi2, hix⟩ := List.getElem?_eq_some.mp hi
      obtain ⟨hj2, hjy⟩ := List.getElem?_eq_some.mp hj
      have hset : swapIdx l i j = (l.set i y).set j x := by
        simp [swapIdx, hi, hj]
      have hj3 : j < (l.set i y).length := by simpa using hj2
      have hjy2 : (l.set i y)[j] = y := by
        by_cases hij : i = j
        · subst hij; simp
        · rw [List.getElem_set_ne hij]; exact hjy
      rw [hset, List.perm_iff_count]
      intro a
      have k1 := count_set_add (l.set i y) j x a hj3
      have k2 := count_set_add l i y a hi2
      rw [hjy2] at k1
      rw [hix] at k2
      by_cases hx : (x == a) = true <;> by_cases hy : (y == a) = true <;>
        simp only [hx, hy, if_true, if_false] at k1 k2 <;> omega

theorem shuffleStep_perm [DecidableEq α] (rand : Nat → Nat) :
    ∀ (n : Nat) (a : List α), (shuffleStep rand n a).Perm a
  | 0, a => List.Perm.refl a
  | n + 1, a =>
    (shuffleStep_perm rand n _).trans (swapIdx_perm a (n + 1) (rand (n + 1) % (n + 2)))

theorem shuffleArray_perm [DecidableEq α] (rand : Nat → Nat) (arr : List α) :
    (shuffleArray rand arr).Perm arr :=
  shuffleStep_perm rand (arr.length - 1) arr

theorem shuffleArray_length [DecidableEq α] (rand : Nat → Nat) (arr : List α) :
    (shuffleArray rand arr).length = arr.length :=
  (shuffleArray_perm rand arr).length_eq

/-! ### Stepping lemmas for the rating loop -/

theorem rateCard_total (r now : String) (s : AppState)
    (h : s.studyIndex < s.studyCards.length) :
    ∃ s', rateCard r now s = some s' := by
  simp only [rateCard, List.getElem?_eq_getElem h]
  exact ⟨_, rfl⟩

theorem rateCard_run (r now : String) (s s' : AppState)
    (h : s.studyIndex < s.studyCards.length)
    (e : rateCard r now s = some s') :
    s'.studyCards = s.studyCards ∧
      s'.studyIndex = s.studyIndex + 1 ∧
      s'.isFlipped = false ∧
      s'.studyCorrect = (if r = "hard" then s.studyCorrect else s.studyCorrect + 1) ∧
      s'.studyWrong = (if r = "hard" then s.studyWrong + 1 else s.studyWrong) ∧
      s'.totalSessions = (if s.studyCards.length ≤ s.studyIndex + 1
        then s.totalSessions + 1 else s.totalSessions) := by
  simp only [rateCard, List.getElem?_eq_getElem h, Option.some.injEq] at e
  subst e
  exact ⟨rfl, rfl, rfl, rfl, rfl, rfl⟩

theorem rateAll_run (rs : List (String × String)) (s : AppState)
    (h : s.studyIndex + rs.length ≤ s.studyCards.length) :
    ∃ s', rateAll rs s = some s' ∧
      s'.studyCards = s.studyCards ∧
      s'.studyIndex = s.studyIndex + rs.length ∧
      s'.totalSessions =
        (if s.studyIndex + rs.length = s.studyCards.length ∧ 0 < rs.length
         then s.totalSessions + 1 else s.totalSessions) := by
  induction rs generalizing s with
  | nil =>
    refine ⟨s, rfl, rfl, by simp, ?_⟩
    simp
  | cons p rest ih =>
    obtain ⟨r, now⟩ := p
    have hlt : s.studyIndex < s.studyCards.length := by
      simp only [List.length_cons] at h; omega
    obtain ⟨s1, e1⟩ := rateCard_total r now s hlt
    obtain ⟨ecards, eidx, _, _, _, etot⟩ := rateCard_run r now s s1 hlt e1
    have h2 : s1.studyIndex + rest.length ≤ s1.studyCards.length := by
      rw [eidx, ecards]; simp only [List.length_cons] at h; omega
    obtain ⟨s2, e2, c2, i2, t2⟩ := ih s1 h2
    refine ⟨s2, ?_, by rw [c2, ecards], ?_, ?_⟩
    · simp only [rateAll, e1, Option.bind_some]
      exact e2
    · rw [i2, eidx]
      simp only [List.length_cons]
      omega
    · rw [t2, etot, ecards, eidx]
      simp only [List.length_cons] at h ⊢
      by_cases hrest : rest.length = 0
      · simp only [hrest]
        split_ifs <;> omega
      · split_ifs <;> omega

/-- C1: on a session of queue length N with the index at the start, rating
all N cards succeeds, leaves the index at N (the Complete state), and bumps
the global totalSessions counter by exactly one, the bump happening only on
the final rating: every proper prefix of the rating sequence leaves
totalSessions untouched. -/
theorem c1_n_ratings_complete (rs : List (String × String)) (s : AppState)
    (h0 : s.studyIndex = 0) (hlen : rs.length = s.studyCards.length)
    (hne : rs ≠ []) :
    ∃ s', rateAll rs s = some s' ∧
      s'.studyIndex = rs.length ∧
      sessionComplete s' ∧
      s'.totalSessions = s.totalSessions + 1 ∧
      (∀ rs₁ rs₂, rs = rs₁ ++ rs₂ → rs₂ ≠ [] →
        ∃ sm, rateAll rs₁ s = some sm ∧ sm.totalSessions = s.totalSessions) := by
  have hpos : 0 < rs.length := List.length_pos.mpr hne
  obtain ⟨s', e, ecards, eidx, etot⟩ := rateAll_run rs s (by omega)
  refine ⟨s', e, by omega, ?_, ?_, ?_⟩
  · show s'.studyCards.length ≤ s'.studyIndex
    rw [ecards]; omega
  · rw [etot, if_pos ⟨by omega, hpos⟩]
  · intro rs₁ rs₂ heq hne₂
    have hsplit : rs₁.length + rs₂.length = rs.length := by
      rw [heq, List.length_append]
    have hpos₂ : 0 < rs₂.length := List.length_pos.mpr hne₂
    obtain ⟨sm, em, _, _, tm⟩ := rateAll_run rs₁ s (by omega)
    refine ⟨sm, em, ?_⟩
    rw [tm, if_neg]
    intro ⟨hcontra, _⟩
    omega

/-- Closed witness for C1: rating both cards of the sample session. -/
theorem c1_n_ratings_complete_witness :
    ∃ s', rateAll [("hard", "t1"), ("easy", "t2")] baseState = some s' ∧
      s'.studyIndex = 2 ∧
      sessionComplete s' ∧
      s'.totalSessions = baseState.totalSessions + 1 ∧
      (∀ rs₁ rs₂, [("hard", "t1"), ("easy", "t2")] = rs₁ ++ rs₂ → rs₂ ≠ [] →
        ∃ sm, rateAll rs₁ baseState = some sm ∧
          sm.totalSessions = baseState.totalSessions) :=
  c1_n_ratings_complete [("hard", "t1"), ("easy", "t2")] baseState rfl rfl
    (by decide)

/-- C2: for a non-empty source, starting a session in either mode yields a
queue whose multiset of card ids equals that of the source and whose length
equals the source length, for every outcome of the random shuffle. -/
theorem c2_start_queue_perm (rand : Nat → Nat) (s : AppState) (d : Deck)
    (h1 : s.cards ≠ [])
    (h2 : s.cards.filter (fun c => c.deckId == d.id) ≠ []) :
    (((startStudyMode rand s).studyCards.map Card.id).Perm (s.cards.map Card.id) ∧
      (startStudyMode rand s).studyCards.length = s.cards.length) ∧
    (((studyDeck rand d s).studyCards.map Card.id).Perm
        ((s.cards.filter (fun c => c.deckId == d.id)).map Card.id) ∧
      (studyDeck rand d s).studyCards.length
        = (s.cards.filter (fun c => c.deckId == d.id)).length) := by
  constructor
  · have hne : ¬s.cards.length = 0 := by
      simpa [List.length_eq_zero] using h1
    have e : (startStudyMode rand s).studyCards
        = shuffleArray rand (s.cards.mergeSort priorityLe) := by
      simp only [startStudyMode, if_neg hne]
    have p1 : (shuffleArray rand (s.cards.mergeSort priorityLe)).Perm s.cards :=
      (shuffleArray_perm rand _).trans (List.mergeSort_perm s.cards priorityLe)
    rw [e]
    exact ⟨p1.map _, p1.length_eq⟩
  · have hne : ¬(s.cards.filter (fun c => c.deckId == d.id)).length = 0 := by
      simpa [List.length_eq_zero] using h2
    have e : (studyDeck rand d s).studyCards
        = shuffleArray rand (s.cards.filter (fun c => c.deckId == d.id)) := by
      simp only [studyDeck, if_neg hne]
    have p1 : (shuffleArray rand (s.cards.filter (fun c => c.deckId == d.id))).Perm
        (s.cards.filter (fun c => c.deckId == d.id)) := shuffleArray_perm rand _
    rw [e]
    exact ⟨p1.map _, p1.length_eq⟩

/-- Closed witness for C2 on the sample store. -/
theorem c2_start_queue_perm_witness :
    (((startStudyMode (fun i => i) baseState).studyCards.map Card.id).Perm
        (baseState.cards.map Card.id) ∧
      (startStudyMode (fun i => i) baseState).studyCards.length
        = baseState.cards.length) ∧
    (((studyDeck (fun i => i) deckD baseState).studyCards.map Card.id).Perm
        ((baseState.cards.filter (fun c => c.deckId == deckD.id)).map Card.id) ∧
      (studyDeck (fun i => i) deckD baseState).studyCards.length
        = (baseState.cards.filter (fun c => c.deckId == deckD.id)).length) :=
  c2_start_queue_perm (fun i => i) baseState deckD (by decide) (by decide)

/-- C10: rating while the current queue card id is absent from the card
store leaves the card collection unchanged, yet still updates the session:
the counter matching the rating increments, the index advances by one and
the flip flag resets. -/
theorem c10_rate_missing_card (r now : String) (s : AppState) (card : Card)
    (hc : s.studyCards[s.studyIndex]? = some card)
    (hm : ∀ c ∈ s.cards, c.id ≠ card.id) :
    ∃ s', rateCard r now s = some s' ∧
      s'.cards = s.cards ∧
      s'.studyCorrect = (if r = "hard" then s.studyCorrect else s.studyCorrect + 1) ∧
      s'.studyWrong = (if r = "hard" then s.studyWrong + 1 else s.studyWrong) ∧
      s'.studyIndex = s.studyIndex + 1 ∧
      s'.isFlipped = false := by
  have hnone : s.cards.findIdx? (fun c => c.id == card.id) = none := by
    rw [List.findIdx?_eq_none_iff]
    intro c hcmem
    simpa using hm c hcmem
  simp only [rateCard, hc, hnone]
  exact ⟨_, rfl, rfl, rfl, rfl, rfl, rfl⟩

/-- Closed witness for C10: the current queue card cardC is not among the
store cards of the constructed state. -/
theorem c10_rate_missing_card_witness :
    ∃ s', rateCard "easy" "t9" missState = some s' ∧
      s'.cards = missState.cards ∧
      s'.studyCorrect = (if "easy" = "hard" then missState.studyCorrect
        else missState.studyCorrect + 1) ∧
      s'.studyWrong = (if "easy" = "hard" then missState.studyWrong + 1
        else missState.studyWrong) ∧
      s'.studyIndex = missState.studyIndex + 1 ∧
      s'.isFlipped = false :=
  c10_rate_missing_card "easy" "t9" missState cardC (by decide) (by decide)

/-- C4: a hard rating increments the wrong counter and any other rating
increments the correct counter; after the rating sequence hard, medium,
easy the accuracy computed by studyAccuracy is 67; with no ratings yet the
accuracy is 0. -/
theorem c4_accuracy_policy :
    (∀ (r now : String) (s s' : AppState), rateCard r now s = some s' →
      (if r = "hard"
        then s'.studyWrong = s.studyWrong + 1 ∧ s'.studyCorrect = s.studyCorrect
        else s'.studyCorrect = s.studyCorrect + 1 ∧ s'.studyWrong = s.studyWrong)) ∧
    (∀ (s : AppState), s.studyIndex = 0 → s.studyCards.length = 3 →
      s.studyCorrect = 0 → s.studyWrong = 0 → ∀ t1 t2 t3 : String,
      ∃ s', rateAll [("hard", t1), ("medium", t2), ("easy", t3)] s = some s' ∧
        studyAccuracy s' = 67) ∧
    (∀ s : AppState, s.studyCorrect = 0 → s.studyWrong = 0 →
      studyAccuracy s = 0) := by
  refine ⟨?_, ?_, ?_⟩
  · intro r now s s' e
    have h : s.studyIndex < s.studyCards.length := by
      by_contra hge
      rw [rateCard, List.getElem?_eq_none (by omega)] at e
      exact Option.noConfusion e
    obtain ⟨_, _, _, ecor, ewr, _⟩ := rateCard_run r now s s' h e
    by_cases hr : r = "hard"
    · rw [if_pos hr]
      rw [if_pos hr] at ecor
      rw [if_pos hr] at ewr
      exact ⟨ewr, ecor⟩
    · rw [if_neg hr]
      rw [if_neg hr] at ecor
      rw [if_neg hr] at ewr
      exact ⟨ecor, ewr⟩
  · intro s hidx hlen hcor hwr t1 t2 t3
    have h1 : s.studyIndex < s.studyCards.length := by omega
    obtain ⟨s1, e1⟩ := rateCard_total "hard" t1 s h1
    obtain ⟨ec1, ei1, _, cor1, wr1, _⟩ := rateCard_run "hard" t1 s s1 h1 e1
    have h2 : s1.studyIndex < s1.studyCards.length := by rw [ei1, ec1]; omega
    obtain ⟨s2, e2⟩ := rateCard_total "medium" t2 s1 h2
    obtain ⟨ec2, ei2, _, cor2, wr2, _⟩ := rateCard_run "medium" t2 s1 s2 h2 e2
    have h3 : s2.studyIndex < s2.studyCards.length := by
      rw [ei2, ei1, ec2, ec1]; omega
    obtain ⟨s3, e3⟩ := rateCard_total "easy" t3 s2 h3
    obtain ⟨_, _, _, cor3, wr3, _⟩ := rateCard_run "easy" t3 s2 s3 h3 e3
    rw [if_pos rfl] at cor1
    rw [if_pos rfl] at wr1
    rw [if_neg (by decide)] at cor2
    rw [if_neg (by decide)] at wr2
    rw [if_neg (by decide)] at cor3
    rw [if_neg (by decide)] at wr3
    refine ⟨s3, ?_, ?_⟩
    · simp only [rateAll, e1, e2, e3, Option.some_bind]
    · have hc3 : s3.studyCorrect = 2 := by omega
      have hw3 : s3.studyWrong = 1 := by omega
      simp [studyAccuracy, mathRound, hc3, hw3]
  · intro s hcor hwr
    simp [studyAccuracy, hcor, hwr]

/-- Closed witness for C4: a session over three sample cards rated hard,
medium, easy reaches accuracy 67, and a fresh session reports accuracy 0. -/
theorem c4_accuracy_policy_witness :
    (∃ s', rateAll [("hard", "u1"), ("medium", "u2"), ("easy", "u3")]
        threeCardState = some s' ∧
      studyAccuracy s' = 67) ∧
    studyAccuracy baseState = 0 :=
  ⟨c4_accuracy_policy.2.1 threeCardState rfl rfl rfl rfl "u1" "u2" "u3",
   c4_accuracy_policy.2.2 baseState rfl rfl⟩

/-- C5: confirmed deck deletion removes the deck, removes exactly the cards
of that deck while keeping every other card, and clears the active
selection precisely when it pointed at the deleted deck. -/
theorem c5_delete_deck_cascade (s : AppState) (d : Deck) (_hd : d ∈ s.decks) :
    (∀ d2 ∈ (deleteDeckConfirmed d.id s).decks, d2.id ≠ d.id) ∧
    (∀ d2 ∈ s.decks, d2.id ≠ d.id → d2 ∈ (deleteDeckConfirmed d.id s).decks) ∧
    (∀ c ∈ (deleteDeckConfirmed d.id s).cards, c.deckId ≠ d.id) ∧
    (∀ c ∈ s.cards, c.deckId ≠ d.id → c ∈ (deleteDeckConfirmed d.id s).cards) ∧
    (∀ c ∈ (deleteDeckConfirmed d.id s).cards, c ∈ s.cards) ∧
    (∀ sd, s.selectedDeck = some sd →
      (deleteDeckConfirmed d.id s).selectedDeck
        = if sd.id = d.id then none else some sd) ∧
    (s.selectedDeck = none → (deleteDeckConfirmed d.id s).selectedDeck = none) := by
  have hdecks : (deleteDeckConfirmed d.id s).decks
      = s.decks.filter (fun x => x.id != d.id) := by
    simp only [deleteDeckConfirmed, showToast]
    cases hsel : s.selectedDeck with
    | none => rfl
    | some sd => by_cases hq : sd.id = d.id <;> simp [hq]
  have hcards : (deleteDeckConfirmed d.id s).cards
      = s.cards.filter (fun x => x.deckId != d.id) := by
    simp only [deleteDeckConfirmed, showToast]
    cases hsel : s.selectedDeck with
    | none => rfl
    | some sd => by_cases hq : sd.id = d.id <;> simp [hq]
  refine ⟨?_, ?_, ?_, ?_, ?_, ?_, ?_⟩
  · intro d2 hmem
    rw [hdecks] at hmem
    simpa using (List.mem_filter.mp hmem).2
  · intro d2 hmem hne
    rw [hdecks]
    exact List.mem_filter.mpr ⟨hmem, by simpa using hne⟩
  · intro c hmem
    rw [hcards] at hmem
    simpa using (List.mem_filter.mp hmem).2
  · intro c hmem hne
    rw [hcards]
    exact List.mem_filter.mpr ⟨hmem, by simpa using hne⟩
  · intro c hmem
    rw [hcards] at hmem
    exact (List.mem_filter.mp hmem).1
  · intro sd hsd
    by_cases hq : sd.id = d.id <;>
      simp [deleteDeckConfirmed, showToast, hsd, hq]
  · intro hsel
    simp [deleteDeckConfirmed, showToast, hsel]

/-- Closed witness for C5: deleting the selected sample deck. -/
theorem c5_delete_deck_cascade_witness :
    (∀ d2 ∈ (deleteDeckConfirmed deckD.id baseState).decks, d2.id ≠ deckD.id) ∧
    (∀ d2 ∈ baseState.decks, d2.id ≠ deckD.id →
      d2 ∈ (deleteDeckConfirmed deckD.id baseState).decks) ∧
    (∀ c ∈ (deleteDeckConfirmed deckD.id baseState).cards, c.deckId ≠ deckD.id) ∧
    (∀ c ∈ baseState.cards, c.deckId ≠ deckD.id →
      c ∈ (deleteDeckConfirmed deckD.id baseState).cards) ∧
    (∀ c ∈ (deleteDeckConfirmed deckD.id baseState).cards, c ∈ baseState.cards) ∧
    (∀ sd, baseState.selectedDeck = some sd →
      (deleteDeckConfirmed deckD.id baseState).selectedDeck
        = if sd.id = deckD.id then none else some sd) ∧
    (baseState.selectedDeck = none →
      (deleteDeckConfirmed deckD.id baseState).selectedDeck = none) :=
  c5_delete_deck_cascade baseState deckD (by decide)

/-- C7: a study start on an empty source (no cards at all, or no cards in
the requested deck) adds an error toast and changes nothing else: store,
session fields and totalSessions are untouched. -/
theorem c7_empty_source_no_change :
    (∀ (rand : Nat → Nat) (s : AppState), s.cards = [] →
      unchangedExceptToasts s (startStudyMode rand s) ∧
      ∃ t, (startStudyMode rand s).toasts = s.toasts ++ [t] ∧
        t.kind = "error") ∧
    (∀ (rand : Nat → Nat) (d : Deck) (s : AppState),
      s.cards.filter (fun c => c.deckId == d.id) = [] →
      unchangedExceptToasts s (studyDeck rand d s) ∧
      ∃ t, (studyDeck rand d s).toasts = s.toasts ++ [t] ∧
        t.kind = "error") := by
  constructor
  · intro rand s h
    have hlen : s.cards.length = 0 := by simp [h]
    constructor
    · simp [startStudyMode, hlen, showToast, unchangedExceptToasts]
    · exact ⟨⟨"No cards to study! Create some cards first.", "error"⟩,
        by simp [startStudyMode, hlen, showToast], rfl⟩
  · intro rand d s h
    have hlen : (s.cards.filter (fun c => c.deckId == d.id)).length = 0 := by
      simp [h]
    constructor
    · simp [studyDeck, hlen, showToast, unchangedExceptToasts]
    · exact ⟨⟨"No cards in this deck!", "error"⟩,
        by simp [studyDeck, hlen, showToast], rfl⟩

/-- Closed witness for C7: starting on a store with no cards, and starting
a deck whose card set is empty. -/
theorem c7_empty_source_no_change_witness :
    (unchangedExceptToasts noCardsState (startStudyMode (fun i => i) noCardsState) ∧
      ∃ t, (startStudyMode (fun i => i) noCardsState).toasts
        = noCardsState.toasts ++ [t] ∧ t.kind = "error") ∧
    (unchangedExceptToasts otherDeckState
        (studyDeck (fun i => i) deckD otherDeckState) ∧
      ∃ t, (studyDeck (fun i => i) deckD otherDeckState).toasts
        = otherDeckState.toasts ++ [t] ∧ t.kind = "error") :=
  ⟨c7_empty_source_no_change.1 (fun i => i) noCardsState rfl,
   c7_empty_source_no_change.2 (fun i => i) deckD otherDeckState (by decide)⟩

/-- C8: a deck or card save whose required trimmed text is empty returns
the state unchanged (so the mutation watcher fires no persistence write),
and a successful card creation initializes difficulty new, reviewCount 0
and no lastReviewed timestamp. -/
theorem c8_validation_and_card_init (freshId now : String) :
    (∀ s : AppState, trimString s.deckForm.name = "" → saveDeck freshId now s = s) ∧
    (∀ s : AppState, trimString s.cardForm.front = "" ∨ trimString s.cardForm.back = "" →
      saveCard freshId now s = some s) ∧
    (∀ (s : AppState) (d : Deck), trimString s.cardForm.front ≠ "" →
      trimString s.cardForm.back ≠ "" → s.editingCard = none →
      s.selectedDeck = some d →
      ∃ s2 c, saveCard freshId now s = some s2 ∧
        s2.cards = s.cards ++ [c] ∧
        c.difficulty = "new" ∧ c.reviewCount = 0 ∧ c.lastReviewed = none) := by
  refine ⟨?_, ?_, ?_⟩
  · intro s h
    simp [saveDeck, h]
  · intro s h
    simp only [saveCard, if_pos h]
  · intro s d hf hb hec hsd
    have hcond : ¬(trimString s.cardForm.front = "" ∨ trimString s.cardForm.back = "") := by
      simp [hf, hb]
    refine ⟨{ s with
        cards := s.cards ++ [⟨freshId, d.id, trimString s.cardForm.front,
          trimString s.cardForm.back, "new", 0, none, now⟩],
        showCardModal := false,
        toasts := s.toasts ++ [⟨"Card added!", "success"⟩] },
      ⟨freshId, d.id, trimString s.cardForm.front, trimString s.cardForm.back,
        "new", 0, none, now⟩, ?_, rfl, rfl, rfl, rfl⟩
    simp only [saveCard, if_neg hcond, hec, hsd, showToast]

/-- Closed witness for C8: an empty deck name and an empty card front are
rejected without any change, and a well-formed card create initializes the
new card. -/
theorem c8_validation_and_card_init_witness :
    (saveDeck "id9" "t9" blankDeckFormState = blankDeckFormState) ∧
    (saveCard "id9" "t9" blankCardFormState = some blankCardFormState) ∧
    (∃ s2 c, saveCard "id9" "t9" baseState = some s2 ∧
      s2.cards = baseState.cards ++ [c] ∧
      c.difficulty = "new" ∧ c.reviewCount = 0 ∧ c.lastReviewed = none) :=
  ⟨(c8_validation_and_card_init "id9" "t9").1 blankDeckFormState (by decide),
   (c8_validation_and_card_init "id9" "t9").2.1 blankCardFormState
     (Or.inl (by decide)),
   (c8_validation_and_card_init "id9" "t9").2.2 baseState deckD
     (by decide) (by decide) rfl rfl⟩

/-- C9: restart shuffles the current queue in place (a permutation of the
queue as it stands, not a re-derivation from the source), resets the index,
flip flag and both counters, and leaves the session in progress when the
queue is non-empty. -/
theorem c9_restart_reshuffles_current_queue (rand : Nat → Nat) (s : AppState)
    (h : s.studyCards ≠ []) :
    (restartStudy rand s).studyCards.Perm s.studyCards ∧
    (restartStudy rand s).studyIndex = 0 ∧
    (restartStudy rand s).isFlipped = false ∧
    (restartStudy rand s).studyCorrect = 0 ∧
    (restartStudy rand s).studyWrong = 0 ∧
    (restartStudy rand s).studyIndex
      < (restartStudy rand s).studyCards.length := by
  refine ⟨shuffleArray_perm rand s.studyCards, rfl, rfl, rfl, rfl, ?_⟩
  show 0 < (shuffleArray rand s.studyCards).length
  rw [shuffleArray_length]
  exact List.length_pos.mpr h

/-- Closed witness for C9 on the sample running session. -/
theorem c9_restart_reshuffles_current_queue_witness :
    (restartStudy (fun i => i) baseState).studyCards.Perm baseState.studyCards ∧
    (restartStudy (fun i => i) baseState).studyIndex = 0 ∧
    (restartStudy (fun i => i) baseState).isFlipped = false ∧
    (restartStudy (fun i => i) baseState).studyCorrect = 0 ∧
    (restartStudy (fun i => i) baseState).studyWrong = 0 ∧
    (restartStudy (fun i => i) baseState).studyIndex
      < (restartStudy (fun i => i) baseState).studyCards.length :=
  c9_restart_reshuffles_current_queue (fun i => i) baseState (by decide)

/-- C6: the invariant index less than or equal to queue length holds after
either start mode and is preserved by flip, rate (whose success certifies a
current card), restart and exit; under the invariant the completion test of
the script (index at or past the end) is exactly index equal to length. -/
theorem c6_session_invariant :
    (∀ (rand : Nat → Nat) (s : AppState), s.cards ≠ [] →
      sessionInvariant (startStudyMode rand s)) ∧
    (∀ (rand : Nat → Nat) (d : Deck) (s : AppState),
      s.cards.filter (fun c => c.deckId == d.id) ≠ [] →
      sessionInvariant (studyDeck rand d s)) ∧
    (∀ s : AppState, sessionInvariant s → sessionInvariant (flipCard s)) ∧
    (∀ (r now : String) (s s2 : AppState), rateCard r now s = some s2 →
      sessionInvariant s2) ∧
    (∀ (rand : Nat → Nat) (s : AppState), sessionInvariant s →
      sessionInvariant (restartStudy rand s)) ∧
    (∀ s : AppState, sessionInvariant s → sessionInvariant (exitStudy s)) ∧
    (∀ s : AppState, sessionInvariant s →
      (sessionComplete s ↔ s.studyIndex = s.studyCards.length)) := by
  refine ⟨?_, ?_, ?_, ?_, ?_, ?_, ?_⟩
  · intro rand s h
    have hlen : ¬s.cards.length = 0 := by simpa [List.length_eq_zero] using h
    simp [startStudyMode, hlen, sessionInvariant]
  · intro rand d s h
    have hlen : ¬(s.cards.filter (fun c => c.deckId == d.id)).length = 0 := by
      simpa [List.length_eq_zero] using h
    simp [studyDeck, hlen, sessionInvariant]
  · intro s h
    exact h
  · intro r now s s2 e
    have h : s.studyIndex < s.studyCards.length := by
      by_contra hge
      rw [rateCard, List.getElem?_eq_none (by omega)] at e
      exact Option.noConfusion e
    obtain ⟨ecards, eidx, _⟩ := rateCard_run r now s s2 h e
    show s2.studyIndex ≤ s2.studyCards.length
    rw [ecards, eidx]
    omega
  · intro rand s _
    show 0 ≤ (restartStudy rand s).studyCards.length
    exact Nat.zero_le _
  · intro s h
    exact h
  · intro s h
    have h3 : s.studyIndex ≤ s.studyCards.length := h
    show s.studyCards.length ≤ s.studyIndex ↔ s.studyIndex = s.studyCards.length
    omega

/-- Closed witness for C6 on the sample state: start holds the invariant,
flip preserves it, and completion coincides with index equal to length. -/
theorem c6_session_invariant_witness :
    sessionInvariant (startStudyMode (fun i => i) baseState) ∧
    sessionInvariant (flipCard baseState) ∧
    (sessionComplete baseState ↔
      baseState.studyIndex = baseState.studyCards.length) :=
  ⟨c6_session_invariant.1 (fun i => i) baseState (by decide),
   c6_session_invariant.2.2.1 baseState
     (show baseState.studyIndex ≤ baseState.studyCards.length by decide),
   c6_session_invariant.2.2.2.2.2.2 baseState
     (show baseState.studyIndex ≤ baseState.studyCards.length by decide)⟩

/-- Stability of the priority sort, phrased on key classes: filtering the
sorted list by any single key equals filtering the input, provided the
order holds between any two elements of the class. -/
theorem filter_mergeSort_of_key (le : α → α → Bool) (p : α → Bool)
    (l : List α)
    (trans : ∀ (a b c : α), le a b → le b c → le a c)
    (total : ∀ (a b : α), le a b || le b a)
    (hp : ∀ a b, p a = true → p b = true → le a b = true) :
    (l.mergeSort le).filter p = l.filter p := by
  have hB : (l.filter p).Pairwise (fun a b => le a b) := by
    apply List.pairwise_of_forall_mem_list
    intro a ha b hb
    exact hp a b (List.mem_filter.mp ha).2 (List.mem_filter.mp hb).2
  have hsub : List.Sublist (l.filter p) (l.mergeSort le) :=
    List.sublist_mergeSort trans total hB (List.filter_sublist l)
  have hfix : (l.filter p).filter p = l.filter p :=
    List.filter_eq_self.mpr (fun a ha => (List.mem_filter.mp ha).2)
  have hsub2 : List.Sublist (l.filter p) ((l.mergeSort le).filter p) := by
    have h2 := hsub.filter p
    rwa [hfix] at h2
  have hperm : ((l.mergeSort le).filter p).Perm (l.filter p) :=
    (List.mergeSort_perm l le).filter p
  exact ((hsub2.eq_of_length hperm.length_eq.symm).symm)

/-- C3 (counterexample): in the single-deck start mode the queue is NOT
built by priority-sorting before the shuffle: at the sample store whose
deck d1 holds an easy card before a hard card, with the identity draw the
code yields the unsorted deck order, so no priority-sorted permutation of
the deck cards can be the list that was shuffled. -/
theorem c3_counterexample_no_sort_in_deck_mode :
    ¬(∃ mid,
        mid.Perm (reorderedState.cards.filter (fun c => c.deckId == deckD.id)) ∧
        mid.Pairwise (fun a b => priority a.difficulty ≤ priority b.difficulty) ∧
        (studyDeck (fun i => i) deckD reorderedState).studyCards
          = shuffleArray (fun i => i) mid) := by
  rintro ⟨mid, hperm, hpair, hq⟩
  have hfilter : reorderedState.cards.filter (fun c => c.deckId == deckD.id)
      = [cardA, cardB] := by decide
  have hlen : mid.length = 2 := by rw [hperm.length_eq, hfilter]; rfl
  obtain ⟨x, y, rfl⟩ := List.length_eq_two.mp hlen
  have hshuf : shuffleArray (fun i => i) [x, y] = [x, y] := rfl
  have hqueue : (studyDeck (fun i => i) deckD reorderedState).studyCards
      = [cardA, cardB] := by decide
  rw [hshuf, hqueue] at hq
  injection hq with h1 hq2
  injection hq2 with h2 hq3
  subst h1
  subst h2
  have : priority cardA.difficulty ≤ priority cardB.difficulty :=
    List.rel_of_pairwise_cons hpair (List.mem_singleton.mpr rfl)
  exact absurd this (by decide)

/-- C3 (amended): the all-cards mode builds its queue by a stable priority
sort (hard 0, new 1, medium 2, easy 3, anything else treated as new)
followed by a full shuffle; the single-deck mode shuffles the filtered deck
cards directly, with no priority sort. -/
theorem c3_amended_priority_sort (rand : Nat → Nat) (s : AppState) (d : Deck)
    (h1 : s.cards ≠ [])
    (h2 : s.cards.filter (fun c => c.deckId == d.id) ≠ []) :
    (∃ mid, (startStudyMode rand s).studyCards = shuffleArray rand mid ∧
      mid.Perm s.cards ∧
      mid.Pairwise (fun a b => priority a.difficulty ≤ priority b.difficulty) ∧
      (∀ k, mid.filter (fun c => priority c.difficulty == k)
        = s.cards.filter (fun c => priority c.difficulty == k))) ∧
    (studyDeck rand d s).studyCards
      = shuffleArray rand (s.cards.filter (fun c => c.deckId == d.id)) := by
  have htrans : ∀ a b c : Card, priorityLe a b → priorityLe b c → priorityLe a c := by
    intro a b c hab hbc
    simp only [priorityLe, decide_eq_true_eq] at hab hbc ⊢
    omega
  have htotal : ∀ a b : Card, priorityLe a b || priorityLe b a := by
    intro a b
    simp only [priorityLe]
    by_cases hle : priority a.difficulty ≤ priority b.difficulty
    · simp [hle]
    · simp [Nat.le_of_not_le hle]
  constructor
  · have hlen : ¬s.cards.length = 0 := by simpa [List.length_eq_zero] using h1
    refine ⟨s.cards.mergeSort priorityLe, ?_,
      List.mergeSort_perm s.cards priorityLe, ?_, ?_⟩
    · simp only [startStudyMode, if_neg hlen]
    · exact (List.sorted_mergeSort htrans htotal s.cards).imp
        (fun hab => by simpa [priorityLe] using hab)
    · intro k
      apply filter_mergeSort_of_key priorityLe _ s.cards htrans htotal
      intro a b ha hb
      simp only [beq_iff_eq] at ha hb
      simp [priorityLe, ha, hb]
  · have hlen : ¬(s.cards.filter (fun c => c.deckId == d.id)).length = 0 := by
      simpa [List.length_eq_zero] using h2
    simp only [studyDeck, if_neg hlen]

/-- Closed witness for the amended C3 on the sample store. -/
theorem c3_amended_priority_sort_witness :
    (∃ mid, (startStudyMode (fun i => i) baseState).studyCards
        = shuffleArray (fun i => i) mid ∧
      mid.Perm baseState.cards ∧
      mid.Pairwise (fun a b => priority a.difficulty ≤ priority b.difficulty) ∧
      (∀ k, mid.filter (fun c => priority c.difficulty == k)
        = baseState.cards.filter (fun c => priority c.difficulty == k))) ∧
    (studyDeck (fun i => i) deckD baseState).studyCards
      = shuffleArray (fun i => i)
          (baseState.cards.filter (fun c => c.deckId == deckD.id)) :=
  c3_amended_priority_sort (fun i => i) baseState deckD (by decide) (by decide)

end Flash
